import Mathlib

/-!
Verification of the task-evidence-verification agent.

This file gives a shallow embedding, in Lean 4, of the core of the agent
(`agent copy.py`, here `src/unnamed/part_000`, and `src/utils.py`):

  * the Python-`base64` legacy decoder used by `decrypt_with_nacl`
    (CPython `binascii.a2b_base64` in non-strict mode: characters outside
    the alphabet are discarded, `=` handling and padding errors follow the
    C implementation);
  * SHA-256 (the `hashlib.sha256` fallback in key normalization),
    implemented from FIPS 180-4 over byte lists, words as `Nat` reduced
    `% 2^32`;
  * the bitcoin-alphabet base58 codec used by `AiUtils.get_public_key`;
  * `decrypt_with_nacl` itself, with the NaCl box-open primitive abstracted
    as an oracle parameter and an explicit event trace recording which
    decoding / key-construction / cryptographic steps were reached;
  * `retrieve_from_ipfs` with the HTTP transport abstracted as an oracle;
  * `verify_task` (both the module-level function and the identical
    `CommchainAgent.verify_task` method) over the ledger response, with an
    event trace.

Python strings are modelled as `List Char`, byte strings as `List Nat`
(each element a byte value).  Fallible operations return `Option` or
`Except`.  Fueled recursion is used where Python loops on non-structural
measures; fuel is always chosen so that it never runs out on the call
arguments.
-/

deriving instance DecidableEq for Except

/-- Python `str.count`-style scan: does `pat` occur as a contiguous
subsequence of `s`?  (Used only with non-empty concrete patterns.) -/
def occursIn (pat : List Char) : List Char → Bool
  | [] => pat.isEmpty
  | c :: cs => pat.isPrefixOf (c :: cs) || occursIn pat cs

/-- Fueled worker for `pyReplace`.  With fuel at least `s.length` this is
Python's left-to-right, non-overlapping `str.replace` with a non-empty
pattern. -/
def pyReplaceAux (pat repl : List Char) : Nat → List Char → List Char
  | _, [] => []
  | 0, s => s
  | fuel + 1, c :: cs =>
      if pat.isPrefixOf (c :: cs) then
        repl ++ pyReplaceAux pat repl fuel ((c :: cs).drop pat.length)
      else
        c :: pyReplaceAux pat repl fuel cs

/-- Python `s.replace(pat, repl)` for a non-empty `pat`: replaces every
occurrence, scanning left to right without rescanning the replacement. -/
def pyReplace (s pat repl : List Char) : List Char :=
  pyReplaceAux pat repl s.length s

/-- Value of a character in the standard base64 alphabet. -/
def b64Val (c : Char) : Option Nat :=
  let n := c.toNat
  if 65 ≤ n ∧ n ≤ 90 then some (n - 65)
  else if 97 ≤ n ∧ n ≤ 122 then some (n - 71)
  else if 48 ≤ n ∧ n ≤ 57 then some (n + 4)
  else if n = 43 then some 62
  else if n = 47 then some 63
  else none

/-- State machine of CPython's legacy (non-strict) `binascii.a2b_base64`:
`quadPos` counts data characters mod 4, `leftchar` holds pending bits,
`pads` counts padding characters seen in the current quad, `out` is the
output accumulated in reverse.  Characters outside the alphabet are
discarded; a quad completed by padding ends decoding successfully; data
left over at the end of input is a padding error (`none`). -/
def b64Aux : List Char → Nat → Nat → Nat → List Nat → Option (List Nat)
  | [], quadPos, _, _, out => if quadPos = 0 then some out.reverse else none
  | c :: cs, quadPos, leftchar, pads, out =>
      if c = '=' then
        if 2 ≤ quadPos ∧ 4 ≤ quadPos + pads + 1 then some out.reverse
        else b64Aux cs quadPos leftchar (pads + 1) out
      else
        match b64Val c with
        | none => b64Aux cs quadPos leftchar pads out
        | some v =>
          match quadPos with
          | 0 => b64Aux cs 1 v 0 out
          | 1 => b64Aux cs 2 (v % 16) 0 ((leftchar * 4 + v / 16) :: out)
          | 2 => b64Aux cs 3 (v % 4) 0 ((leftchar * 16 + v / 4) :: out)
          | _ => b64Aux cs 0 0 0 ((leftchar * 64 + v) :: out)

/-- Python `base64.b64decode` on a `str` argument (default non-strict
mode): the string must be ASCII, then the legacy decoder above runs.
`none` models the raised `binascii.Error` / `ValueError`. -/
def pyB64decode (s : List Char) : Option (List Nat) :=
  if s.all (fun c => c.toNat < 128) then b64Aux s 0 0 0 [] else none

/-- UTF-8 encoding of one character (Python `str.encode("utf-8")`). -/
def utf8Char (c : Char) : List Nat :=
  let n := c.toNat
  if n < 128 then [n]
  else if n < 2048 then [192 + n / 64, 128 + n % 64]
  else if n < 65536 then [224 + n / 4096, 128 + (n / 64) % 64, 128 + n % 64]
  else [240 + n / 262144, 128 + (n / 4096) % 64, 128 + (n / 64) % 64, 128 + n % 64]

/-- Python `s.encode("utf-8")`. -/
def utf8Encode (s : List Char) : List Nat :=
  (s.map utf8Char).flatten

/-- Reduction to a 32-bit word. -/
def w32 (n : Nat) : Nat := n % 4294967296

/-- Right rotation of a 32-bit word (input assumed `< 2^32`). -/
def rotr32 (k x : Nat) : Nat := x / 2 ^ k + (x % 2 ^ k) * 2 ^ (32 - k)

/-- FIPS 180-4 `Ch`. -/
def shaCh (e f g : Nat) : Nat := (e &&& f) ^^^ ((e ^^^ 4294967295) &&& g)

/-- FIPS 180-4 `Maj`. -/
def shaMaj (a b c : Nat) : Nat := (a &&& b) ^^^ (a &&& c) ^^^ (b &&& c)

/-- FIPS 180-4 `Σ₀`. -/
def bigSigma0 (x : Nat) : Nat := rotr32 2 x ^^^ rotr32 13 x ^^^ rotr32 22 x

/-- FIPS 180-4 `Σ₁`. -/
def bigSigma1 (x : Nat) : Nat := rotr32 6 x ^^^ rotr32 11 x ^^^ rotr32 25 x

/-- FIPS 180-4 `σ₀`. -/
def smallSigma0 (x : Nat) : Nat := rotr32 7 x ^^^ rotr32 18 x ^^^ x / 8

/-- FIPS 180-4 `σ₁`. -/
def smallSigma1 (x : Nat) : Nat := rotr32 17 x ^^^ rotr32 19 x ^^^ x / 1024

/-- The 64 SHA-256 round constants of FIPS 180-4 (decimal). -/
def shaK : List Nat :=
  [1116352408, 1899447441, 3049323471, 3921009573, 961987163, 1508970993,
   2453635748, 2870763221, 3624381080, 310598401, 607225278, 1426881987,
   1925078388, 2162078206, 2614888103, 3248222580, 3835390401, 4022224774,
   264347078, 604807628, 770255983, 1249150122, 1555081692, 1996064986,
   2554220882, 2821834349, 2952996808, 3210313671, 3336571891, 3584528711,
   113926993, 338241895, 666307205, 773529912, 1294757372, 1396182291,
   1695183700, 1986661051, 2177026350, 2456956037, 2730485921, 2820302411,
   3259730800, 3345764771, 3516065817, 3600352804, 4094571909, 275423344,
   430227734, 506948616, 659060556, 883997877, 958139571, 1322822218,
   1537002063, 1747873779, 1955562222, 2024104815, 2227730452, 2361852424,
   2428436474, 2756734187, 3204031479, 3329325298]

/-- Working state of the SHA-256 compression function. -/
structure Hash8 where
  a : Nat
  b : Nat
  c : Nat
  d : Nat
  e : Nat
  f : Nat
  g : Nat
  h : Nat

/-- The SHA-256 initial hash value of FIPS 180-4 (decimal). -/
def shaH0 : Hash8 :=
  ⟨1779033703, 3144134277, 1013904242, 2773480762,
   1359893119, 2600822924, 528734635, 1541459225⟩

/-- Big-endian 8-byte rendering of a length field. -/
def lenBE8 (n : Nat) : List Nat :=
  [n / 2 ^ 56 % 256, n / 2 ^ 48 % 256, n / 2 ^ 40 % 256, n / 2 ^ 32 % 256,
   n / 2 ^ 24 % 256, n / 2 ^ 16 % 256, n / 2 ^ 8 % 256, n % 256]

/-- FIPS 180-4 §5.1.1 padding: `0x80`, zeros to 56 mod 64, 64-bit length. -/
def sha256pad (msg : List Nat) : List Nat :=
  msg ++ 128 :: List.replicate ((119 - msg.length % 64) % 64) 0 ++ lenBE8 (8 * msg.length)

/-- Split a byte list into 64-byte blocks (fuel at least the length). -/
def chunk64 : Nat → List Nat → List (List Nat)
  | _, [] => []
  | 0, _ => []
  | fuel + 1, bs => bs.take 64 :: chunk64 fuel (bs.drop 64)

/-- Big-endian 32-bit words from bytes. -/
def bytesToWords : List Nat → List Nat
  | b1 :: b2 :: b3 :: b4 :: rest =>
      (b1 * 16777216 + b2 * 65536 + b3 * 256 + b4) :: bytesToWords rest
  | _ => []

/-- Message-schedule extension: append `k` further words `W_t`. -/
def extendW (ws : List Nat) : Nat → List Nat
  | 0 => ws
  | k + 1 =>
      extendW
        (ws ++ [w32 (smallSigma1 (ws.getD (ws.length - 2) 0) +
                     ws.getD (ws.length - 7) 0 +
                     smallSigma0 (ws.getD (ws.length - 15) 0) +
                     ws.getD (ws.length - 16) 0)]) k

/-- One SHA-256 round. -/
def shaStep (st : Hash8) (kw : Nat × Nat) : Hash8 :=
  let t1 := w32 (st.h + bigSigma1 st.e + shaCh st.e st.f st.g + kw.1 + kw.2)
  let t2 := w32 (bigSigma0 st.a + shaMaj st.a st.b st.c)
  ⟨w32 (t1 + t2), st.a, st.b, st.c, w32 (st.d + t1), st.e, st.f, st.g⟩

/-- Compress one 64-byte block into the running hash. -/
def processBlock (st : Hash8) (block : List Nat) : Hash8 :=
  let ws := extendW (bytesToWords block) 48
  let r := (shaK.zip ws).foldl shaStep st
  ⟨w32 (st.a + r.a), w32 (st.b + r.b), w32 (st.c + r.c), w32 (st.d + r.d),
   w32 (st.e + r.e), w32 (st.f + r.f), w32 (st.g + r.g), w32 (st.h + r.h)⟩

/-- Big-endian 4-byte rendering of a 32-bit word. -/
def wordBytes (x : Nat) : List Nat :=
  [x / 16777216 % 256, x / 65536 % 256, x / 256 % 256, x % 256]

/-- Serialize the final hash state. -/
def hashBytes (st : Hash8) : List Nat :=
  wordBytes st.a ++ wordBytes st.b ++ wordBytes st.c ++ wordBytes st.d ++
  wordBytes st.e ++ wordBytes st.f ++ wordBytes st.g ++ wordBytes st.h

/-- SHA-256 of a byte list (`hashlib.sha256(...).digest()`). -/
def sha256 (msg : List Nat) : List Nat :=
  let padded := sha256pad msg
  hashBytes ((chunk64 padded.length padded).foldl processBlock shaH0)

/-- The bitcoin base58 alphabet used by the Python `base58` package. -/
def b58Alphabet : List Char :=
  ['1', '2', '3', '4', '5', '6', '7', '8', '9',
   'A', 'B', 'C', 'D', 'E', 'F', 'G', 'H', 'J', 'K', 'L', 'M', 'N',
   'P', 'Q', 'R', 'S', 'T', 'U', 'V', 'W', 'X', 'Y', 'Z',
   'a', 'b', 'c', 'd', 'e', 'f', 'g', 'h', 'i', 'j', 'k', 'm', 'n',
   'o', 'p', 'q', 'r', 's', 't', 'u', 'v', 'w', 'x', 'y', 'z']

/-- Index of a character in a list, or `none`. -/
def idxOfChar (c : Char) : List Char → Nat → Option Nat
  | [], _ => none
  | a :: as, i => if a = c then some i else idxOfChar c as (i + 1)

/-- Digit value of a base58 character (`none` models `ValueError`). -/
def b58Digit (c : Char) : Option Nat := idxOfChar c b58Alphabet 0

/-- Accumulate the big-endian base58 integer value of a string. -/
def b58IntAux : List Char → Nat → Option Nat
  | [], acc => some acc
  | c :: cs, acc =>
      match b58Digit c with
      | none => none
      | some v => b58IntAux cs (acc * 58 + v)

/-- Fueled big-endian minimal byte rendering of a natural number; with
fuel at least `n` the fuel never runs out. -/
def natToBytesAux : Nat → Nat → List Nat
  | 0, _ => []
  | fuel + 1, n => if n = 0 then [] else natToBytesAux fuel (n / 256) ++ [n % 256]

/-- Big-endian minimal byte rendering of a natural number. -/
def natToBytesBE (n : Nat) : List Nat := natToBytesAux n n

/-- Number of leading occurrences of a character. -/
def countLeadChar (c : Char) : List Char → Nat
  | [] => 0
  | a :: as => if a = c then countLeadChar c as + 1 else 0

/-- Python `base58.b58decode`: each leading `'1'` yields a zero byte, the
rest is the minimal big-endian rendering of the base58 integer value;
any character outside the alphabet raises (`none`). -/
def pyB58decode (s : List Char) : Option (List Nat) :=
  match b58IntAux s 0 with
  | none => none
  | some v => some (List.replicate (countLeadChar '1' s) 0 ++ natToBytesBE v)

/-- Fueled base58 digit rendering of a natural number. -/
def natToB58Aux : Nat → Nat → List Char
  | 0, _ => []
  | fuel + 1, n =>
      if n = 0 then [] else natToB58Aux fuel (n / 58) ++ [b58Alphabet.getD (n % 58) '1']

/-- Big-endian integer value of a byte list. -/
def bytesToNat (bs : List Nat) : Nat := bs.foldl (fun acc b => acc * 256 + b) 0

/-- Number of leading zero bytes. -/
def countLeadZero : List Nat → Nat
  | [] => 0
  | b :: bs => if b = 0 then countLeadZero bs + 1 else 0

/-- Python `base58.b58encode` (result as characters): one `'1'` per
leading zero byte, then the base58 digits of the integer value. -/
def pyB58encode (bs : List Nat) : List Char :=
  List.replicate (countLeadZero bs) '1' ++ natToB58Aux (bytesToNat bs) (bytesToNat bs)

/-- The `b64:` transport tag checked by `decrypt_with_nacl`. -/
def b64Tag : List Char := ['b', '6', '4', ':']

/-- Key decoding exactly as in `decrypt_with_nacl` (lines 157-162 of the
agent source): when the configured secret starts with `b64:`, the WHOLE
string (tag included) is passed to `base64.b64decode`; otherwise the
UTF-8 bytes of the string are used. -/
def keyBytes (k : List Char) : Option (List Nat) :=
  if b64Tag.isPrefixOf k then pyB64decode k else some (utf8Encode k)

/-- Modelled from the spec: key decoding as the specification words it
("if prefixed, base64-decode the remainder"); the four tag characters are
dropped before decoding.  For comparison with `keyBytes` in claim C2. -/
def keyBytesClaim (k : List Char) : Option (List Nat) :=
  if b64Tag.isPrefixOf k then pyB64decode (k.drop 4) else some (utf8Encode k)

/-- Key length normalization of `decrypt_with_nacl` (lines 164-169):
a 32-byte key passes through, anything else is replaced by its SHA-256
digest (`nacl.public.PrivateKey.SIZE = 32`). -/
def normalizeKey (kb : List Nat) : List Nat :=
  if kb.length = 32 then kb else sha256 kb

/-- A JSON value as Python's `json.loads` yields it, restricted to the
shapes relevant to the envelope payload. -/
inductive PyVal where
  | str (s : List Char)
  | num (n : Int)
  | boolean (b : Bool)
  | null
  | arr (elems : List PyVal)

/-- Python truthiness of a JSON value. -/
def pyTruthy : PyVal → Bool
  | .str s => !s.isEmpty
  | .num n => n ≠ 0
  | .boolean b => b
  | .null => false
  | .arr l => !l.isEmpty

/-- The parsed envelope payload: `payload.get(field)` is `none` when the
key is absent. -/
structure Payload where
  nonce : Option PyVal
  encryptedData : Option PyVal
  senderPublicKey : Option PyVal

/-- Python `not payload.get(field)`: true when the field is absent or
present with a falsy value. -/
def fieldMissing : Option PyVal → Bool
  | none => true
  | some v => !pyTruthy v

/-- Extract a string field; `none` models the `TypeError` that
`base64.b64decode` raises on a non-`str` argument. -/
def getStr : Option PyVal → Option (List Char)
  | some (.str s) => some s
  | _ => none

/-- Failure outcomes of `decrypt_with_nacl`.  The Python code raises
plain exceptions; each constructor corresponds to one raise site.  Note
that a base64 failure carries only the offending input string (matching
the `binascii.Error` message, which depends on the input alone), never
the name of the envelope field being decoded. -/
inductive DErr where
  | malformedEnvelope
  | missingKey
  | b64Error (input : List Char)
  | typeError
  | badPublicKeySize
  | badNonceSize
  | decryptFailed
deriving DecidableEq

/-- Operations performed by `decrypt_with_nacl`, in source order, for
stating "before any decoding or cryptographic work" claims. -/
inductive DEvent where
  | keyDecode
  | keyHash
  | mkPrivateKey
  | fieldDecode
  | mkPublicKey
  | mkBox
  | boxOpen
deriving DecidableEq

/-- Shallow embedding of `decrypt_with_nacl` (agent source lines
129-192) over the parsed payload.  `boxOpen sk pk nonce ct` abstracts
`nacl.public.Box(PrivateKey(sk), PublicKey(pk)).decrypt(ct, nonce=nonce)`
returning `none` on `CryptoError`; `encryptionKey` is the configured
`ENCRYPTION_KEY` (`none` when unset).  The second component is the trace
of decoding / key-construction / cryptographic steps reached, in source
order: required-field check, key presence check, key decode, length
normalization (hash), `PrivateKey`, `senderPublicKey` decode,
`PublicKey` (which requires 32 bytes), `nonce` decode, `encryptedData`
decode, `Box`, `decrypt` (which requires a 24-byte nonce). -/
def decrypt_with_nacl
    (boxOpen : List Nat → List Nat → List Nat → List Nat → Option (List Nat))
    (encryptionKey : Option (List Char)) (p : Payload) :
    Except DErr (List Nat) × List DEvent :=
  if fieldMissing p.nonce || fieldMissing p.encryptedData || fieldMissing p.senderPublicKey then
    (.error .malformedEnvelope, [])
  else
    match encryptionKey with
    | none => (.error .missingKey, [])
    | some ek =>
      match keyBytes ek with
      | none => (.error (.b64Error ek), [.keyDecode])
      | some kb =>
        let nk := normalizeKey kb
        let ev1 : List DEvent :=
          if kb.length = 32 then [.keyDecode, .mkPrivateKey]
          else [.keyDecode, .keyHash, .mkPrivateKey]
        match getStr p.senderPublicKey with
        | none => (.error .typeError, ev1)
        | some spkS =>
          match pyB64decode spkS with
          | none => (.error (.b64Error spkS), ev1 ++ [.fieldDecode])
          | some spkB =>
            if spkB.length ≠ 32 then (.error .badPublicKeySize, ev1 ++ [.fieldDecode])
            else
              let ev2 := ev1 ++ [.fieldDecode, .mkPublicKey]
              match getStr p.nonce with
              | none => (.error .typeError, ev2)
              | some nS =>
                match pyB64decode nS with
                | none => (.error (.b64Error nS), ev2 ++ [.fieldDecode])
                | some nB =>
                  match getStr p.encryptedData with
                  | none => (.error .typeError, ev2 ++ [.fieldDecode])
                  | some ctS =>
                    match pyB64decode ctS with
                    | none => (.error (.b64Error ctS), ev2 ++ [.fieldDecode, .fieldDecode])
                    | some ctB =>
                      let ev3 := ev2 ++ [.fieldDecode, .fieldDecode, .mkBox]
                      if nB.length ≠ 24 then (.error .badNonceSize, ev3)
                      else
                        match boxOpen nk spkB nB ctB with
                        | none => (.error .decryptFailed, ev3 ++ [.boxOpen])
                        | some pt => (.ok pt, ev3 ++ [.boxOpen])

/-- The `ed25519:` algorithm tag of NEAR extended private keys. -/
def edTag : List Char := ['e', 'd', '2', '5', '5', '1', '9', ':']

/-- Shallow embedding of `AiUtils.get_public_key` (utils.py lines
65-76).  `derive` abstracts the library call
`ed25519.SigningKey(seed).get_verifying_key().to_bytes()`, which demands
a 32-byte seed (hence the length guard; `.error` models the raised
exception).  Note the source removes every occurrence of the tag with
`str.replace`, then base58-decodes the result, takes the first 32 bytes
as the signing seed, and base58-encodes the derived verifying key. -/
def get_public_key (derive : List Nat → List Nat) (extended_private_key : List Char) :
    Except Unit (List Char) :=
  let private_key_base58 := pyReplace extended_private_key edTag []
  match pyB58decode private_key_base58 with
  | none => .error ()
  | some decoded =>
      let secret_key := decoded.take 32
      if secret_key.length = 32 then .ok (pyB58encode (derive secret_key))
      else .error ()

/-- Modelled from the spec: public-key derivation as claim C9 words it —
strip the leading `ed25519:` tag (only a leading occurrence), base58-
decode the remainder, take the first 32 bytes as the signing seed,
derive the verifying key, base58-encode it.  For comparison with
`get_public_key`. -/
def derive_public_key_claim (derive : List Nat → List Nat) (s : List Char) :
    Except Unit (List Char) :=
  let rest := if edTag.isPrefixOf s then s.drop 8 else s
  match pyB58decode rest with
  | none => .error ()
  | some decoded =>
      let secret_key := decoded.take 32
      if secret_key.length = 32 then .ok (pyB58encode (derive secret_key))
      else .error ()

/-- An HTTP response as seen through `requests`. -/
structure HttpResponse where
  status : Nat
  reason : List Char
  body : List Nat

/-- Python `requests.Response.ok`: true unless `raise_for_status` would
raise, i.e. unless the status code is in `[400, 600)`. -/
def respOk (r : HttpResponse) : Bool := !(400 ≤ r.status ∧ r.status < 600)

/-- The gateway URL `https://{cid}.ipfs.w3s.link` built both by
`retrieve_from_ipfs` (line 111) and by `verify_task` (line 241). -/
def gatewayUrl (cid : List Char) : List Char :=
  "https://".toList ++ cid ++ ".ipfs.w3s.link".toList

/-- The error message raised by `retrieve_from_ipfs` on a non-ok status:
`f"Failed to retrieve file: {response.status_code} {response.reason}"`. -/
def retrievalErrMsg (status : Nat) (reason : List Char) : List Char :=
  "Failed to retrieve file: ".toList ++ Nat.toDigits 10 status ++ ' ' :: reason

/-- Shallow embedding of `retrieve_from_ipfs` (agent source lines
99-126): build the gateway URL, perform the GET (abstracted as the
oracle `http`), raise on a non-ok status, otherwise return the full
response body. -/
def retrieve_from_ipfs (http : List Char → HttpResponse) (cid : List Char) :
    Except (List Char) (List Nat) :=
  let response := http (gatewayUrl cid)
  if respOk response then .ok response.body
  else .error (retrievalErrMsg response.status response.reason)

/-- A task record as returned by the `get_task` ledger view call. -/
structure LedgerTask where
  status : Int
  result : List Char
  evidence : List Char

/-- Collaborator invocations that `verify_task` could make.  Only
`locate` (the inline evidence-to-URL transformation, lines 238-241) ever
occurs in the source: `verify_task` contains no call to
`retrieve_from_ipfs`, to `decrypt_with_nacl`, or to `describe_image`. -/
inductive VEvent where
  | locate
  | fetch
  | decryptEnv
  | describe
deriving DecidableEq

/-- The evidence-to-CID step of `verify_task` (line 238):
`evidence.replace("storj-", "")` — every occurrence of the substring is
removed, not only a leading tag. -/
def storjTag : List Char := ['s', 't', 'o', 'r', 'j', '-']

/-- Python `evidence.replace("storj-", "")` as executed by
`verify_task`. -/
def resolveEvidence (evidence : List Char) : List Char :=
  pyReplace evidence storjTag []

/-- Modelled from the spec: the content locator as claim C5 words it —
strip exactly the leading `storj-` tag when present, leaving the
remainder of the string untouched.  For comparison with
`resolveEvidence`. -/
def resolveEvidenceClaim (evidence : List Char) : List Char :=
  if storjTag.isPrefixOf evidence then evidence.drop 6 else evidence

/-- Shallow embedding of `verify_task` (agent source lines 195-251; the
method `CommchainAgent.verify_task`, lines 387-428, is line-for-line
identical in the modelled region).  The ledger response for
`get_task {id: int(task_id)}` is passed in as `ledger` (`none` models a
falsy result).  Returns the reply string and the trace of collaborator
invocations; the source performs no fetch, no decryption and no
description call — on the pending path it only builds the gateway URL
and tells the caller to use the `describe_image` tool. -/
def verify_task (task_id : List Char) (ledger : Option LedgerTask) : List Char × List VEvent :=
  match ledger with
  | none => ("Task with ID ".toList ++ task_id ++ " not found".toList, [])
  | some t =>
      if t.status = 1 then
        ("Task ".toList ++ task_id ++ " is already verified with result: ".toList ++ t.result, [])
      else
        let actual_cid := resolveEvidence t.evidence
        let ipfs_url := gatewayUrl actual_cid
        ("Task ".toList ++ task_id ++ " found. Evidence URL: ".toList ++ ipfs_url ++
         "\n\nTo analyze this evidence, you can use the describe_image tool with the URL.".toList,
         [.locate])

/-- A word is a prefix of itself followed by anything. -/
theorem isPrefixOf_append_self (pat rest : List Char) : pat.isPrefixOf (pat ++ rest) = true := by
  induction pat with
  | nil => cases rest <;> rfl
  | cons c cs ih => simp [List.isPrefixOf, ih]

/-- A successful prefix test splits the string. -/
theorem eq_append_drop_of_isPrefixOf {pat s : List Char} (h : pat.isPrefixOf s = true) :
    s = pat ++ s.drop pat.length := by
  induction pat generalizing s with
  | nil => simp
  | cons c cs ih =>
      cases s with
      | nil => simp [List.isPrefixOf] at h
      | cons b bs =>
          simp only [List.isPrefixOf_cons₂, Bool.and_eq_true, beq_iff_eq] at h
          obtain ⟨h1, h2⟩ := h
          subst h1
          simpa using ih h2

/-- If some character of the pattern never occurs in the string, the
pattern does not occur in the string. -/
theorem occursIn_eq_false (pat s : List Char) (x : Char) (hx : x ∈ pat) (hs : x ∉ s) :
    occursIn pat s = false := by
  induction s with
  | nil =>
      cases pat with
      | nil => cases hx
      | cons a as => rfl
  | cons c cs ih =>
      have h1 : pat.isPrefixOf (c :: cs) = false := by
        cases hp : pat.isPrefixOf (c :: cs) with
        | false => rfl
        | true =>
            exfalso
            apply hs
            rw [eq_append_drop_of_isPrefixOf hp]
            exact List.mem_append_left _ hx
      have h2 : occursIn pat cs = false :=
        ih (fun hm => hs (List.mem_cons_of_mem _ hm))
      simp [occursIn, h1, h2]

/-- When the pattern does not occur, `pyReplaceAux` is the identity at
every fuel. -/
theorem pyReplaceAux_eq_self {pat repl : List Char} :
    ∀ (fuel : Nat) (s : List Char), occursIn pat s = false →
      pyReplaceAux pat repl fuel s = s := by
  intro fuel
  induction fuel with
  | zero => intro s _; cases s <;> rfl
  | succ f ih =>
      intro s hs
      cases s with
      | nil => rfl
      | cons c cs =>
          rw [occursIn, Bool.or_eq_false_iff] at hs
          simp [pyReplaceAux, hs.1, ih cs hs.2]

/-- When the pattern does not occur, `pyReplace` leaves the string
untouched. -/
theorem pyReplace_eq_self {pat repl s : List Char} (h : occursIn pat s = false) :
    pyReplace s pat repl = s :=
  pyReplaceAux_eq_self s.length s h

/-- Replacing a non-empty pattern in `pat ++ rest` where `pat` does not
occur in `rest` yields `repl ++ rest`. -/
theorem pyReplace_tag_append (pat repl rest : List Char) (hne : pat ≠ [])
    (hocc : occursIn pat rest = false) :
    pyReplace (pat ++ rest) pat repl = repl ++ rest := by
  cases pat with
  | nil => exact absurd rfl hne
  | cons a as =>
      show pyReplaceAux (a :: as) repl (((a :: as) ++ rest).length) (a :: (as ++ rest)) = _
      have hL : ((a :: as) ++ rest).length = as.length + rest.length + 1 := by
        simp [List.length_append]
      rw [hL]
      simp only [pyReplaceAux]
      have hpre : (a :: as).isPrefixOf (a :: (as ++ rest)) = true := by
        have h := isPrefixOf_append_self (a :: as) rest
        simp [List.cons_append] at h
        simp [h]
      rw [if_pos hpre]
      have hdrop : (a :: (as ++ rest)).drop (a :: as).length = rest := by
        have h := List.drop_left (a :: as) rest
        simp [List.cons_append] at h
        simp [h]
      rw [hdrop, pyReplaceAux_eq_self _ rest hocc]

/-- Accumulating the base58 value never fails on alphabet characters. -/
theorem b58IntAux_isSome :
    ∀ (s : List Char) (acc : Nat), (∀ c ∈ s, (b58Digit c).isSome = true) →
      (b58IntAux s acc).isSome = true := by
  intro s
  induction s with
  | nil => intro acc _; rfl
  | cons c cs ih =>
      intro acc h
      obtain ⟨v, hv⟩ := Option.isSome_iff_exists.mp (h c (List.mem_cons_self c cs))
      rw [b58IntAux, hv]
      exact ih _ fun x hx => h x (List.mem_cons_of_mem _ hx)

/-- A SHA-256 digest is always 32 bytes. -/
theorem sha256_length (msg : List Nat) : (sha256 msg).length = 32 := by
  simp [sha256, hashBytes, wordBytes]

/-- Claim C2 (code_bug).  The claim (and spec) say that for a secret
carrying the `b64:` transport tag, key decoding base64-decodes the
remainder after the tag.  The code instead passes the entire tagged
string to `base64.b64decode`.  For the secret `"b64:AAAA"` the
spec-modelled decoding yields the three zero bytes encoded by `"AAAA"`,
while the code's decoding fails: after the non-alphabet `':'` is
discarded, `"b64AAAA"` has 7 data characters, which is a padding error
(and every canonically padded remainder fails the same way).  The
untagged path of the claim does hold: a secret without the tag is used as
its raw UTF-8 bytes. -/
theorem C2_keyBytes_tag_not_stripped :
    keyBytes ('b' :: '6' :: '4' :: ':' :: "AAAA".toList) = none
  ∧ keyBytesClaim ('b' :: '6' :: '4' :: ':' :: "AAAA".toList) = some [0, 0, 0]
  ∧ keyBytes "rawkey".toList = some (utf8Encode "rawkey".toList) := by
  refine ⟨by decide, by decide, by decide⟩

/-- Claim C3 (confirmed).  For every envelope JSON missing any one of
the fields `nonce`, `encryptedData`, `senderPublicKey`, decryption fails
with the malformed-envelope error, with an empty operation trace: no
base64 decoding of fields, no key construction and no cryptographic work
is attempted. -/
theorem C3_missing_field_rejected_early
    (boxOpen : List Nat → List Nat → List Nat → List Nat → Option (List Nat))
    (ek : Option (List Char)) (p : Payload)
    (h : p.nonce = none ∨ p.encryptedData = none ∨ p.senderPublicKey = none) :
    decrypt_with_nacl boxOpen ek p = (.error .malformedEnvelope, []) := by
  rcases h with h | h | h <;> simp [decrypt_with_nacl, fieldMissing, h]

/-- Witness for C3 at a concrete envelope with no `nonce` key. -/
theorem C3_missing_field_rejected_early_witness :
    decrypt_with_nacl (fun _ _ _ _ => none) (some ['k'])
      ⟨none, some (.str "AAAA".toList), some (.str "AAAA".toList)⟩
      = (.error .malformedEnvelope, []) :=
  C3_missing_field_rejected_early _ _ _ (Or.inl rfl)

/-- Claim C10 (confirmed).  An envelope field that is present but falsy
(empty string, or any other falsy JSON value) is rejected exactly as if
the field were absent: the outcome (malformed-envelope error, empty
operation trace) is identical to the absent-field outcome, before any
decoding or cryptographic work. -/
theorem C10_falsy_field_is_missing
    (boxOpen : List Nat → List Nat → List Nat → List Nat → Option (List Nat))
    (ek : Option (List Char)) (p : Payload) (v : PyVal) (hv : pyTruthy v = false) :
    (decrypt_with_nacl boxOpen ek { p with nonce := some v }
        = decrypt_with_nacl boxOpen ek { p with nonce := none }
      ∧ decrypt_with_nacl boxOpen ek { p with nonce := some v }
        = (.error .malformedEnvelope, []))
  ∧ (decrypt_with_nacl boxOpen ek { p with encryptedData := some v }
        = decrypt_with_nacl boxOpen ek { p with encryptedData := none }
      ∧ decrypt_with_nacl boxOpen ek { p with encryptedData := some v }
        = (.error .malformedEnvelope, []))
  ∧ (decrypt_with_nacl boxOpen ek { p with senderPublicKey := some v }
        = decrypt_with_nacl boxOpen ek { p with senderPublicKey := none }
      ∧ decrypt_with_nacl boxOpen ek { p with senderPublicKey := some v }
        = (.error .malformedEnvelope, [])) := by
  refine ⟨⟨?_, ?_⟩, ⟨?_, ?_⟩, ⟨?_, ?_⟩⟩ <;>
    simp [decrypt_with_nacl, fieldMissing, hv]

/-- Witness for C10: an empty-string `nonce` is rejected as malformed. -/
theorem C10_falsy_field_is_missing_witness :
    pyTruthy (PyVal.str []) = false
  ∧ decrypt_with_nacl (fun _ _ _ _ => none) (some ['k'])
      ⟨some (.str []), some (.str "AAAA".toList), some (.str "AAAA".toList)⟩
      = (.error .malformedEnvelope, []) :=
  ⟨by decide,
   (C10_falsy_field_is_missing (fun _ _ _ _ => none) (some ['k'])
      ⟨some (.str "x".toList), some (.str "AAAA".toList), some (.str "AAAA".toList)⟩
      (PyVal.str []) (by decide)).1.2⟩

/-- Claim C4 (confirmed).  For every task whose ledger record has status
Verified (1), the verifier terminates immediately with the stored result
in its reply and an empty invocation trace: the locator, the fetcher and
the decryptor are never invoked, so a verified task is never
re-decrypted. -/
theorem C4_verified_short_circuits
    (task_id : List Char) (t : LedgerTask) (h : t.status = 1) :
    verify_task task_id (some t)
      = ("Task ".toList ++ task_id ++ " is already verified with result: ".toList ++ t.result,
         []) := by
  simp [verify_task, h]

/-- Witness for C4 at the spec's scenario task 7 with stored result
"ok". -/
theorem C4_verified_short_circuits_witness :
    verify_task "7".toList (some ⟨1, "ok".toList, "storj-EV".toList⟩)
      = ("Task 7 is already verified with result: ok".toList, []) := by
  rw [C4_verified_short_circuits "7".toList ⟨1, "ok".toList, "storj-EV".toList⟩ rfl]
  decide

/-- Claim C6 (confirmed).  Key length normalization is deterministic: a
decoded key of exactly 32 bytes passes through unchanged; a key of any
other length is mapped to its SHA-256 digest, and the normalized key is
always 32 bytes long. -/
theorem C6_normalizeKey_cases (kb : List Nat) :
    (kb.length = 32 → normalizeKey kb = kb)
  ∧ (kb.length ≠ 32 → normalizeKey kb = sha256 kb)
  ∧ (normalizeKey kb).length = 32 := by
  by_cases h : kb.length = 32 <;>
    simp [normalizeKey, h, sha256_length]

/-- Witness for C6 at the 3-byte key "abc": it is hashed, and the
normalized key has 32 bytes. -/
theorem C6_normalizeKey_cases_witness :
    normalizeKey [97, 98, 99] = sha256 [97, 98, 99]
  ∧ (normalizeKey [97, 98, 99]).length = 32 :=
  ⟨(C6_normalizeKey_cases [97, 98, 99]).2.1 (by decide),
   (C6_normalizeKey_cases [97, 98, 99]).2.2⟩

/-- Claim C1 (corrected) — counterexample.  The claim says that for a
pending task with an evidence reference the verifier fetches the bytes
at the resolved gateway URL, decrypts them as an envelope, and returns a
success outcome containing the description collaborator's output.  At
the spec's own scenario (task 42, status 0, evidence "storj-CIDXYZ") the
source performs only the locate step: its invocation trace is exactly
`[locate]` — no fetch, no decryption, no description call — and its
reply is the gateway URL plus an instruction to use the describe_image
tool, not a description of decrypted content. -/
theorem C1_counterexample :
    (verify_task "42".toList (some ⟨0, [], "storj-CIDXYZ".toList⟩)).snd = [VEvent.locate]
  ∧ VEvent.fetch ∉ (verify_task "42".toList (some ⟨0, [], "storj-CIDXYZ".toList⟩)).snd
  ∧ VEvent.decryptEnv ∉ (verify_task "42".toList (some ⟨0, [], "storj-CIDXYZ".toList⟩)).snd
  ∧ VEvent.describe ∉ (verify_task "42".toList (some ⟨0, [], "storj-CIDXYZ".toList⟩)).snd
  ∧ (verify_task "42".toList (some ⟨0, [], "storj-CIDXYZ".toList⟩)).fst
      = ("Task 42 found. Evidence URL: https://CIDXYZ.ipfs.w3s.link\n\nTo analyze this evidence, you can use the describe_image tool with the URL.").toList := by
  refine ⟨by decide, by decide, by decide, by decide, by decide⟩

/-- Claim C1 (corrected) — amended claim.  For every task read from the
ledger whose status is not Verified, `verify_task` applies the content
locator to the evidence and returns a reply containing the resolved
gateway URL together with an instruction to analyze it with the
describe_image tool; it performs no fetch, no decryption, and never
invokes the description collaborator itself. -/
theorem C1_amended_locate_only
    (task_id : List Char) (t : LedgerTask) (h : t.status ≠ 1) :
    verify_task task_id (some t)
      = ("Task ".toList ++ task_id ++ " found. Evidence URL: ".toList ++
           gatewayUrl (resolveEvidence t.evidence) ++
           "\n\nTo analyze this evidence, you can use the describe_image tool with the URL.".toList,
         [VEvent.locate]) := by
  simp [verify_task, h]

/-- Witness for the amended C1 at the spec's scenario task 42. -/
theorem C1_amended_locate_only_witness :
    verify_task "42".toList (some ⟨0, [], "storj-CIDXYZ".toList⟩)
      = ("Task 42 found. Evidence URL: https://CIDXYZ.ipfs.w3s.link\n\nTo analyze this evidence, you can use the describe_image tool with the URL.".toList,
         [VEvent.locate]) := by
  rw [C1_amended_locate_only "42".toList ⟨0, [], "storj-CIDXYZ".toList⟩ (by decide)]
  decide

/-- Claim C5 (corrected) — counterexample.  The claim says the locator
strips exactly the leading "storj-" tag, leaving the remainder of the
evidence string untouched.  The source uses `str.replace`, which removes
every occurrence: on evidence "storj-CIDstorj-X" the code yields "CIDX",
while the claim-modelled locator (strip only the leading tag) yields
"CIDstorj-X". -/
theorem C5_counterexample :
    resolveEvidence "storj-CIDstorj-X".toList = "CIDX".toList
  ∧ resolveEvidenceClaim "storj-CIDstorj-X".toList = "CIDstorj-X".toList
  ∧ resolveEvidence "storj-CIDstorj-X".toList ≠ resolveEvidenceClaim "storj-CIDstorj-X".toList := by
  refine ⟨by decide, by decide, by decide⟩

/-- Claim C5 (corrected) — amended claim.  The locator removes every
occurrence of the substring "storj-" from the evidence string (scanning
left to right); in particular, on evidence consisting of the tag
followed by a CID in which "storj-" does not occur, the result is
exactly that CID and the gateway URL is built from it, and evidence in
which "storj-" does not occur at all is left untouched. -/
theorem C5_amended_replace_all (cid : List Char) (h : occursIn storjTag cid = false) :
    resolveEvidence (storjTag ++ cid) = cid
  ∧ gatewayUrl (resolveEvidence (storjTag ++ cid))
      = "https://".toList ++ cid ++ ".ipfs.w3s.link".toList
  ∧ resolveEvidence cid = cid := by
  have h1 : resolveEvidence (storjTag ++ cid) = cid := by
    have := pyReplace_tag_append storjTag [] cid (by decide) h
    simpa [resolveEvidence] using this
  exact ⟨h1, by rw [h1]; rfl, pyReplace_eq_self h⟩

/-- Witness for the amended C5 at the spec's example CID shape. -/
theorem C5_amended_replace_all_witness :
    resolveEvidence ("storj-bafybeigdyr".toList)
      = "bafybeigdyr".toList
  ∧ gatewayUrl (resolveEvidence ("storj-bafybeigdyr".toList))
      = "https://bafybeigdyr.ipfs.w3s.link".toList := by
  have h := C5_amended_replace_all "bafybeigdyr".toList (by decide)
  exact ⟨by rw [show ("storj-bafybeigdyr".toList) = storjTag ++ "bafybeigdyr".toList from by decide]; exact h.1,
         by rw [show ("storj-bafybeigdyr".toList) = storjTag ++ "bafybeigdyr".toList from by decide]; rw [h.2.1]; decide⟩

/-- A non-nil list is not empty (Bool form). -/
theorem isEmpty_false_of_ne {s : List Char} (h : s ≠ []) : s.isEmpty = false := by
  cases s with
  | nil => exact absurd rfl h
  | cons a as => rfl

/-- Claim C7 (corrected) — counterexample.  The claim says a base64
decode failure on a field is reported as a distinct error naming which
field failed.  In the source every decode failure raises the bare
`binascii.Error`, whose content depends only on the offending string,
and the single catch-all re-raises it unchanged.  Two envelopes that
fail on different fields (`nonce` here, `encryptedData` there) with the
same malformed string "A" produce literally identical errors. -/
theorem C7_counterexample :
    (decrypt_with_nacl (fun _ _ _ _ => none) (some "0123456789abcdef0123456789abcdef".toList)
        ⟨some (.str ['A']), some (.str "AAAA".toList),
         some (.str (List.replicate 43 'A' ++ ['=']))⟩).fst
      = .error (.b64Error ['A'])
  ∧ (decrypt_with_nacl (fun _ _ _ _ => none) (some "0123456789abcdef0123456789abcdef".toList)
        ⟨some (.str "AAAA".toList), some (.str ['A']),
         some (.str (List.replicate 43 'A' ++ ['=']))⟩).fst
      = .error (.b64Error ['A'])
  ∧ (decrypt_with_nacl (fun _ _ _ _ => none) (some "0123456789abcdef0123456789abcdef".toList)
        ⟨some (.str ['A']), some (.str "AAAA".toList),
         some (.str (List.replicate 43 'A' ++ ['=']))⟩).fst
      = (decrypt_with_nacl (fun _ _ _ _ => none) (some "0123456789abcdef0123456789abcdef".toList)
          ⟨some (.str "AAAA".toList), some (.str ['A']),
           some (.str (List.replicate 43 'A' ++ ['=']))⟩).fst := by
  refine ⟨by decide, by decide, by decide⟩

/-- Claim C7 (corrected) — amended claim.  A base64 decode failure on
any of the three envelope fields surfaces as the same undifferentiated
base64 error carrying only the offending input string, with no field
identification; the fields are decoded in source order senderPublicKey,
nonce, encryptedData, and the first failure wins. -/
theorem C7_amended_same_error_all_fields
    (boxOpen : List Nat → List Nat → List Nat → List Nat → Option (List Nat))
    (ek : List Char) (kb : List Nat) (p : Payload) (nS cS sS : List Char)
    (hn : p.nonce = some (.str nS)) (hc : p.encryptedData = some (.str cS))
    (hs : p.senderPublicKey = some (.str sS))
    (hne : nS ≠ []) (hce : cS ≠ []) (hse : sS ≠ [])
    (hk : keyBytes ek = some kb) :
    (pyB64decode sS = none →
       (decrypt_with_nacl boxOpen (some ek) p).fst = .error (.b64Error sS))
  ∧ (∀ sb, pyB64decode sS = some sb → sb.length = 32 → pyB64decode nS = none →
       (decrypt_with_nacl boxOpen (some ek) p).fst = .error (.b64Error nS))
  ∧ (∀ sb nb, pyB64decode sS = some sb → sb.length = 32 → pyB64decode nS = some nb →
       pyB64decode cS = none →
       (decrypt_with_nacl boxOpen (some ek) p).fst = .error (.b64Error cS)) := by
  have hne' := isEmpty_false_of_ne hne
  have hce' := isEmpty_false_of_ne hce
  have hse' := isEmpty_false_of_ne hse
  refine ⟨?_, ?_, ?_⟩
  · intro hd
    simp [decrypt_with_nacl, fieldMissing, pyTruthy, hn, hc, hs, hne', hce', hse',
          hk, getStr, hd]
  · intro sb hsb h32 hd
    simp [decrypt_with_nacl, fieldMissing, pyTruthy, hn, hc, hs, hne', hce', hse',
          hk, getStr, hsb, h32, hd]
  · intro sb nb hsb h32 hnb hd
    simp [decrypt_with_nacl, fieldMissing, pyTruthy, hn, hc, hs, hne', hce', hse',
          hk, getStr, hsb, h32, hnb, hd]

/-- Witness for the amended C7: a malformed nonce "A" with a well-formed
32-byte sender key yields the bare base64 error on "A". -/
theorem C7_amended_same_error_all_fields_witness :
    (decrypt_with_nacl (fun _ _ _ _ => none) (some "0123456789abcdef0123456789abcdef".toList)
        ⟨some (.str ['A']), some (.str "AAAA".toList),
         some (.str (List.replicate 43 'A' ++ ['=']))⟩).fst
      = .error (.b64Error ['A']) :=
  (C7_amended_same_error_all_fields (fun _ _ _ _ => none)
      "0123456789abcdef0123456789abcdef".toList
      (utf8Encode "0123456789abcdef0123456789abcdef".toList)
      ⟨some (.str ['A']), some (.str "AAAA".toList),
       some (.str (List.replicate 43 'A' ++ ['=']))⟩
      ['A'] "AAAA".toList (List.replicate 43 'A' ++ ['='])
      rfl rfl rfl (by decide) (by decide) (by decide) (by decide)).2.1
    (List.replicate 32 0) (by decide) (by decide) (by decide)

/-- Claim C8 (confirmed).  The content fetcher performs a GET on the
gateway URL built from the CID; when `response.ok` is false it raises an
error carrying the transport status code and reason text (in the message
"Failed to retrieve file: status reason"), in particular for status 404;
when the status indicates success it returns the full response body as
bytes. -/
theorem C8_fetch_status_semantics (http : List Char → HttpResponse) (cid : List Char) :
    (respOk (http (gatewayUrl cid)) = false →
       retrieve_from_ipfs http cid
         = .error (retrievalErrMsg (http (gatewayUrl cid)).status
                     (http (gatewayUrl cid)).reason))
  ∧ (respOk (http (gatewayUrl cid)) = true →
       retrieve_from_ipfs http cid = .ok (http (gatewayUrl cid)).body)
  ∧ ((http (gatewayUrl cid)).status = 404 →
       retrieve_from_ipfs http cid
         = .error (retrievalErrMsg 404 (http (gatewayUrl cid)).reason)) := by
  refine ⟨fun h => by simp [retrieve_from_ipfs, h],
          fun h => by simp [retrieve_from_ipfs, h],
          fun h => ?_⟩
  have hok : respOk (http (gatewayUrl cid)) = false := by simp [respOk, h]
  simp [retrieve_from_ipfs, hok, h]

/-- Witness for C8: a constant-404 transport yields the error message
carrying "404" and the reason text; a 200 transport yields the body. -/
theorem C8_fetch_status_semantics_witness :
    retrieve_from_ipfs (fun _ => ⟨404, "Not Found".toList, [7]⟩) "CIDXYZ".toList
      = .error ("Failed to retrieve file: 404 Not Found".toList)
  ∧ retrieve_from_ipfs (fun _ => ⟨200, "OK".toList, [7, 8]⟩) "CIDXYZ".toList
      = .ok [7, 8] := by
  constructor
  · rw [(C8_fetch_status_semantics (fun _ => ⟨404, "Not Found".toList, [7]⟩)
          "CIDXYZ".toList).2.2 rfl]
    decide
  · exact (C8_fetch_status_semantics (fun _ => ⟨200, "OK".toList, [7, 8]⟩)
      "CIDXYZ".toList).2.1 rfl

/-- Claim C9 (confirmed).  For every well-formed extended private key —
the `ed25519:` algorithm tag followed by a base58 string whose decoding
carries at least 32 bytes — `get_public_key` is a pure deterministic
function: it is computed by stripping the tag (on such inputs
`str.replace` removes exactly the leading tag, since the base58 alphabet
cannot contain the `':'` of the tag), base58-decoding the remainder,
taking the first 32 bytes as the signing seed, deriving the Ed25519
verifying key (the `derive` oracle abstracts the library call), and
base58-encoding it; it agrees with the claim-modelled strip-the-prefix
pipeline, and identical inputs give identical outputs. -/
theorem C9_get_public_key_pipeline
    (derive : List Nat → List Nat) (rest : List Char)
    (hall : ∀ c ∈ rest, (b58Digit c).isSome = true)
    (hlen : 32 ≤ ((pyB58decode rest).getD []).length) :
    get_public_key derive (edTag ++ rest)
      = .ok (pyB58encode (derive (((pyB58decode rest).getD []).take 32)))
  ∧ get_public_key derive (edTag ++ rest) = derive_public_key_claim derive (edTag ++ rest)
  ∧ ∀ s, s = edTag ++ rest →
      get_public_key derive s = get_public_key derive (edTag ++ rest) := by
  have hsome : (b58IntAux rest 0).isSome = true := b58IntAux_isSome rest 0 hall
  obtain ⟨v, hv⟩ := Option.isSome_iff_exists.mp hsome
  have hdec : pyB58decode rest
      = some (List.replicate (countLeadChar '1' rest) 0 ++ natToBytesBE v) := by
    simp [pyB58decode, hv]
  set bs := List.replicate (countLeadChar '1' rest) 0 ++ natToBytesBE v with hbs
  have hlen' : 32 ≤ bs.length := by
    rw [hdec] at hlen
    simpa using hlen
  have htake : (bs.take 32).length = 32 := by
    rw [List.length_take]
    omega
  have hcol : ':' ∉ rest := fun hmem => absurd (hall ':' hmem) (by decide)
  have hocc : occursIn edTag rest = false :=
    occursIn_eq_false edTag rest ':' (by decide) hcol
  have hrepl : pyReplace (edTag ++ rest) edTag [] = rest := by
    have h := pyReplace_tag_append edTag [] rest (by decide) hocc
    simpa using h
  have hcode : get_public_key derive (edTag ++ rest)
      = .ok (pyB58encode (derive (bs.take 32))) := by
    simp [get_public_key, hrepl, hdec, htake]
  refine ⟨?_, ?_, fun s hss => by rw [hss]⟩
  · rw [hcode, hdec]
    rfl
  · rw [hcode]
    have hdrop : (edTag ++ rest).drop 8 = rest := List.drop_left edTag rest
    simp [derive_public_key_claim, isPrefixOf_append_self, hdrop, hdec, htake]

/-- Witness for C9 at a concrete 50-character base58 remainder (decoding
to 36 bytes) and the identity as the derivation oracle. -/
theorem C9_get_public_key_pipeline_witness :
    get_public_key (fun bs => bs) (edTag ++ List.replicate 50 '2')
      = .ok (pyB58encode (((pyB58decode (List.replicate 50 '2')).getD []).take 32)) :=
  (C9_get_public_key_pipeline (fun bs => bs) (List.replicate 50 '2')
    (by decide) (by decide)).1
